import Mathlib

/-!
# Verification of the `goulash/csv` marshalling core

Shallow embedding of `csv.go` (package `csv`): the reflection-based
dispatcher `Marshal`, the four strategies (`Marshaler` pass-through,
`marshalRecorder`, `marshalRecorderSlice`, `marshalInterfaceSlice`) and
the row writer `writeRecord`.

Modelling conventions:
* Go byte slices built by `bytes.Buffer.WriteString`/`WriteRune` are
  modelled as `String` (UTF-8 concatenation is string append); a `nil`
  byte slice is `none` and a `nil` error is `none` in an `Option String`.
* Go `error` values are modelled by their message strings, exactly as
  `errors.New` / `fmt.Errorf` format them in the source.
* A Go panic that escapes a function is an `Except.error`/`Outcome.panic`
  carrying the runtime message; `marshalInterfaceSlice`'s
  `defer`/`recover` block converts every such panic (all panic values in
  its scope are Go `error`s, including runtime errors) into an ordinary
  error return with a `nil` byte slice.
* A Go value handed to `Marshal` as `interface{}` is a `Value`: it
  carries its dynamic type name (as `reflect` / `%T` / `%s` would print
  it), the method-set capabilities of that dynamic type (`Caps`), and
  its shape (plain value, pointer, or slice/array with the declared
  element type).
-/

namespace Csv

/-- Error message of `errors.New("csv: no data")` (empty collection). -/
def errNoData : String := "csv: no data"

/-- Message of `fmt.Errorf("csv: slice element %T does not implement Recorder", ...)`
raised (as a panic, later recovered) inside `marshalInterfaceSlice`.
Note the format string interpolates only the element's dynamic type. -/
def errElemNotRecorder (actualTy : String) : String :=
  "csv: slice element " ++ actualTy ++ " does not implement Recorder"

/-- Message of `fmt.Errorf("csv: expecting slice element type %s, got %s", t, rt)`
raised inside `marshalInterfaceSlice`. It interpolates the expected and
the actual type. -/
def errWrongElemType (expected actual : String) : String :=
  "csv: expecting slice element type " ++ expected ++ ", got " ++ actual

/-- Message of `fmt.Errorf("csv: slice element type %s does not implement Recorder", vt.Elem())`
returned by `Marshal` for a slice of a concrete non-`Recorder`,
non-interface element type. -/
def errSliceElemType (elemTy : String) : String :=
  "csv: slice element type " ++ elemTy ++ " does not implement Recorder"

/-- Message of `fmt.Errorf("csv: cannot marshal %s", vt)` returned by
`Marshal` for an unsupported top-level value. -/
def errCannotMarshal (ty : String) : String :=
  "csv: cannot marshal " ++ ty

/-- Go runtime panic message for `slice[:m]` with `m = -1`: raised by
`writeRecord` on an empty field list (`len(slice)-1` underflows). -/
def boundsPanicMsg : String := "runtime error: slice bounds out of range"

/-- Go runtime panic message raised when `Marshal` is called with a nil
interface: `reflect.TypeOf(nil)` is a nil `reflect.Type` and the method
call `vt.Implements(...)` dereferences it. -/
def nilDerefPanicMsg : String :=
  "runtime error: invalid memory address or nil pointer dereference"

/-- Go runtime panic message for a failed type assertion
`vv.Index(i).Interface().(Recorder)` in `marshalRecorderSlice`
(reachable only for a declared-`Recorder` element type holding a nil or
otherwise non-conforming element). -/
def assertPanicMsg : String :=
  "interface conversion: element does not implement csv.Recorder"

/-- The method-set capabilities of a dynamic type, as `reflect`'s
`Implements` observes them.
* `marshalCSV = some (bs, err)`: the type implements `Marshaler`, and
  `MarshalCSV()` returns the byte slice `bs` and error `err`
  (either may independently be `nil` = `none`).
* `recorder = some (h, r)`: the type implements `Recorder`, with
  `Header()` returning `h` and `Record()` returning `r`. -/
structure Caps where
  marshalCSV : Option (Option String × Option String)
  recorder : Option (List String × List String)
deriving Repr, DecidableEq

/-- The declared element type of a Go slice/array, as `Marshal` inspects
it via `vt.Elem()`.
* `recorderT`: the declared element type implements `Recorder`
  (a concrete type, a pointer type, or an interface such as `Recorder`
  itself — `vt.Elem().Implements(recorderType)` holds).
* `interfaceT name`: an interface type not implementing `Recorder`
  (e.g. `interface\x7b\x7d`), `name` being its printed form.
* `otherT name`: any other element type; `name` is its `%s` form. -/
inductive ElemType where
  | recorderT
  | interfaceT (name : String)
  | otherT (name : String)
deriving Repr, DecidableEq

/-- A Go value as passed to `Marshal` in an `interface{}`:
* `nilV` — the nil interface;
* `atom ty caps` — a non-pointer, non-slice value of dynamic type `ty`
  whose method set gives `caps`;
* `ptr ty caps pointee` — a (non-nil) pointer of type `ty`: its own
  method set gives `caps`, and `reflect.ValueOf(v).Elem().Interface()`
  yields `pointee`;
* `coll ty caps elemTy elems` — a slice or array of type `ty` with
  declared element type `elemTy`, holding `elems` in order. -/
inductive Value where
  | nilV
  | atom (ty : String) (caps : Caps)
  | ptr (ty : String) (caps : Caps) (pointee : Value)
  | coll (ty : String) (caps : Caps) (elemTy : ElemType) (elems : List Value)

/-- The dynamic type name of a value, as `%T` prints it
(`%T` of a nil interface prints `<nil>`). -/
def Value.tyName : Value → String
  | .nilV => "<nil>"
  | .atom ty _ => ty
  | .ptr ty _ _ => ty
  | .coll ty _ _ _ => ty

/-- The capabilities of a value's dynamic type. A nil interface has no
dynamic type; `Marshal` panics on it before ever consulting this, so the
`nilV` row is arbitrary. -/
def Value.capsOf : Value → Caps
  | .nilV => ⟨none, none⟩
  | .atom _ caps => caps
  | .ptr _ caps _ => caps
  | .coll _ caps _ _ => caps

/-- `Header()` of a value whose type implements `Recorder`
(junk `[]` otherwise). -/
def Value.headerOf (v : Value) : List String := (v.capsOf.recorder.getD ([], [])).1

/-- `Record()` of a value whose type implements `Recorder`
(junk `[]` otherwise). -/
def Value.recordOf (v : Value) : List String := (v.capsOf.recorder.getD ([], [])).2

/-- Outcome of a call to `Marshal`: a normal Go return
`(bs []byte, err error)` (each possibly nil), or an escaping panic. -/
inductive Outcome where
  | ret (bs : Option String) (err : Option String)
  | panic (msg : String)
deriving Repr, DecidableEq

/-- The byte output of an outcome: the (possibly nil) byte slice of a
normal return; a panic produces no byte output. -/
def Outcome.bytesOf : Outcome → Option String
  | .ret bs _ => bs
  | .panic _ => none

/-- `writeRecord(buf, slice)` from `csv.go`: writes each of the first
`len(slice)-1` fields followed by `','`, then the last field, then
`'\n'`. On an empty slice, `slice[:len(slice)-1]` is `slice[:-1]`, a Go
runtime panic (`Except.error`). -/
def writeRecord : List String → Except String String
  | [] => .error boundsPanicMsg
  | [s] => .ok (s ++ "\n")
  | s :: rest => (writeRecord rest).map (fun t => s ++ "," ++ t)

/-- `marshalRecorder` from `csv.go`: writes the header row, then the
record row. A panic from `writeRecord` escapes (no `recover` here). -/
def marshalRecorder (header record : List String) : Except String String :=
  match writeRecord header with
  | .error m => .error m
  | .ok h =>
    match writeRecord record with
    | .error m => .error m
    | .ok r => .ok (h ++ r)

/-- The type assertion `vv.Index(i).Interface().(Recorder)` in
`marshalRecorderSlice`'s `get` closure: panics if the element's dynamic
type does not implement `Recorder`. -/
def recAssert (v : Value) : Except String (List String × List String) :=
  match v.capsOf.recorder with
  | some hr => .ok hr
  | none => .error assertPanicMsg

/-- The row-writing loop of `marshalRecorderSlice`:
`for i := 0; i < n; i++ { writeRecord(&buf, get(i).Record()) }`. -/
def recRows : List Value → Except String String
  | [] => .ok ""
  | v :: rest =>
    match recAssert v with
    | .error m => .error m
    | .ok hr =>
      match writeRecord hr.2 with
      | .error m => .error m
      | .ok row =>
        match recRows rest with
        | .error m => .error m
        | .ok tail => .ok (row ++ tail)

/-- `marshalRecorderSlice` from `csv.go`: errors with `csv: no data` on
an empty collection, else writes `get(0).Header()` as the header row and
one record row per element (element 0 included). Panics escape: there is
no `recover` in this function, and a panic discards the buffer, so a
panicking call returns no bytes. -/
def marshalRecorderSlice : List Value → Outcome
  | [] => .ret none (some errNoData)
  | v0 :: rest =>
    match recAssert v0 with
    | .error m => .panic m
    | .ok hr0 =>
      match writeRecord hr0.1 with
      | .error m => .panic m
      | .ok h =>
        match recRows (v0 :: rest) with
        | .error m => .panic m
        | .ok rows => .ret (some (h ++ rows)) none

/-- The `get` closure of `marshalInterfaceSlice`: asserts the element
implements `Recorder` (else panics with `errElemNotRecorder` carrying
the element's `%T`), then compares its dynamic type against the captured
type `t` of element 0 (else panics with `errWrongElemType`). -/
def ifaceGet (t : String) (v : Value) : Except String (List String × List String) :=
  match v.capsOf.recorder with
  | none => .error (errElemNotRecorder v.tyName)
  | some hr => if v.tyName = t then .ok hr else .error (errWrongElemType t v.tyName)

/-- The row-writing loop of `marshalInterfaceSlice`, checking each
element through `get` before writing its record row. -/
def ifaceRows (t : String) : List Value → Except String String
  | [] => .ok ""
  | v :: rest =>
    match ifaceGet t v with
    | .error m => .error m
    | .ok hr =>
      match writeRecord hr.2 with
      | .error m => .error m
      | .ok row =>
        match ifaceRows t rest with
        | .error m => .error m
        | .ok tail => .ok (row ++ tail)

/-- `marshalInterfaceSlice` from `csv.go`: errors with `csv: no data` on
an empty collection; otherwise captures `t := reflect.TypeOf` of element
0, writes `get(0).Header()` then one record row per element. The
`defer`/`recover` block converts every panic (all panic values raised in
its scope are Go errors) into a normal return with nil bytes and the
panic's error — never partial output, never an escaping panic. -/
def marshalInterfaceSlice : List Value → Outcome
  | [] => .ret none (some errNoData)
  | v0 :: rest =>
    match ifaceGet v0.tyName v0 with
    | .error m => .ret none (some m)
    | .ok hr0 =>
      match writeRecord hr0.1 with
      | .error m => .ret none (some m)
      | .ok h =>
        match ifaceRows v0.tyName (v0 :: rest) with
        | .error m => .ret none (some m)
        | .ok rows => .ret (some (h ++ rows)) none

/-- The two capability checks at the top of `Marshal`, shared by every
kind of value: `vt.Implements(marshalerType)` first (pass the
`MarshalCSV()` pair through verbatim), then `vt.Implements(recorderType)`
(single-record strategy; its `writeRecord` panics escape). `none` means
neither interface is implemented. -/
def capsResult (caps : Caps) : Option Outcome :=
  match caps.marshalCSV with
  | some (bs, err) => some (.ret bs err)
  | none =>
    match caps.recorder with
    | some (h, r) =>
      match marshalRecorder h r with
      | .ok bs => some (.ret (some bs) none)
      | .error m => some (.panic m)
    | none => none

/-- `Marshal` from `csv.go`. On a nil interface, `reflect.TypeOf(v)` is
nil and `vt.Implements(...)` panics with a nil-pointer dereference. For
any other value: the two interface checks run first; then a pointer is
dereferenced once and `Marshal` restarts on the pointee (a recursive
call, so this repeats per level); then a slice or array dispatches on
its declared element type; anything else is `csv: cannot marshal`. -/
def Marshal : Value → Outcome
  | .nilV => .panic nilDerefPanicMsg
  | .atom ty caps =>
    match capsResult caps with
    | some o => o
    | none => .ret none (some (errCannotMarshal ty))
  | .ptr _ caps pointee =>
    match capsResult caps with
    | some o => o
    | none => Marshal pointee
  | .coll _ caps elemTy elems =>
    match capsResult caps with
    | some o => o
    | none =>
      match elemTy with
      | .recorderT => marshalRecorderSlice elems
      | .interfaceT _ => marshalInterfaceSlice elems
      | .otherT name => .ret none (some (errSliceElemType name))

/-! ## Spec-side vocabulary

Definitions below follow the spec's words, to state properties against;
they are not translations of the source. -/

/-- A CSV row as the spec describes it: the fields joined with a single
comma between each adjacent pair, terminated by one newline. -/
def rowStr (fields : List String) : String :=
  String.intercalate "," fields ++ "\n"

/-- The data rows of a collection as the spec describes them: one row
per element, in sequence order, from each element's `Record()`. -/
def rowsStr (l : List Value) : String :=
  (l.map (fun v => rowStr v.recordOf)).foldr (· ++ ·) ""

/-- Number of newline characters in a string: since every emitted row is
newline-terminated, this counts the "newline-terminated lines" of an
output. -/
def countNL (s : String) : Nat := s.data.count '\n'

/-- The capability/type check the tagged-collection strategy performs on
one element against the captured type `t` (spec §4.4): `none` when the
element passes, `some e` with the resulting failure otherwise. -/
def capFailure (t : String) (v : Value) : Option String :=
  match v.capsOf.recorder with
  | none => some (errElemNotRecorder v.tyName)
  | some _ => if v.tyName = t then none else some (errWrongElemType t v.tyName)

/-- Index of the first element a tagged collection's per-element check
rejects (relative to the captured type of element 0). -/
def firstFailIdx (l : List Value) : Option Nat :=
  match l with
  | [] => none
  | v0 :: _ => l.findIdx? (fun v => (capFailure v0.tyName v).isSome)

/-- A chain of capability-less pointers around a value, one `ptr` level
per type name in `tys`. -/
def wrapPtrs (tys : List String) (v : Value) : Value :=
  tys.foldr (fun ty acc => .ptr ty ⟨none, none⟩ acc) v

/-! ## Helper lemmas -/

theorem intercalate_go_append (t : List String) (p a s : String) :
    String.intercalate.go (p ++ a) s t = p ++ String.intercalate.go a s t := by
  induction t generalizing a with
  | nil => rfl
  | cons b t ih =>
    show String.intercalate.go (p ++ a ++ s ++ b) s t = _
    rw [show p ++ a ++ s ++ b = p ++ (a ++ s ++ b) by
      simp [String.append_assoc]]
    exact ih (a ++ s ++ b)

/-- `writeRecord` on a non-empty field list succeeds and produces the
comma-joined, newline-terminated row. -/
theorem writeRecord_cons (s : String) (rest : List String) :
    writeRecord (s :: rest) = .ok (rowStr (s :: rest)) := by
  induction rest generalizing s with
  | nil => rfl
  | cons a t ih =>
    show (writeRecord (a :: t)).map (fun u => s ++ "," ++ u) = _
    rw [ih a]
    show Except.ok (s ++ "," ++ (String.intercalate "," (a :: t) ++ "\n")) = _
    unfold rowStr
    show _ = Except.ok (String.intercalate.go s "," (a :: t) ++ "\n")
    show _ = Except.ok (String.intercalate.go (s ++ "," ++ a) "," t ++ "\n")
    rw [intercalate_go_append t (s ++ ",") a ","]
    show Except.ok (s ++ "," ++ (String.intercalate.go a "," t ++ "\n")) = _
    congr 1
    show s ++ "," ++ (String.intercalate.go a "," t ++ "\n")
       = s ++ "," ++ String.intercalate.go a "," t ++ "\n"
    simp [String.append_assoc]

theorem marshalRecorder_ok (h r : List String) (hh : h ≠ []) (hr : r ≠ []) :
    marshalRecorder h r = .ok (rowStr h ++ rowStr r) := by
  obtain ⟨s, t, rfl⟩ := List.exists_cons_of_ne_nil hh
  obtain ⟨u, w, rfl⟩ := List.exists_cons_of_ne_nil hr
  unfold marshalRecorder
  rw [writeRecord_cons s t, writeRecord_cons u w]

/-! ## Concrete example values -/

/-- A value of dynamic type `main.A` implementing `Recorder` with
header `["h"]` and record `["1"]`. -/
def exA : Value := .atom "main.A" ⟨none, some (["h"], ["1"])⟩

/-- A value of dynamic type `main.X` implementing neither interface. -/
def exX : Value := .atom "main.X" ⟨none, none⟩

/-- A `Recorder` of dynamic type `main.R`: row `1,Alice`. -/
def exR1 : Value := .atom "main.R" ⟨none, some (["id", "name"], ["1", "Alice"])⟩

/-- A `Recorder` of dynamic type `main.R`: row `2,Bob`. -/
def exR2 : Value := .atom "main.R" ⟨none, some (["id", "name"], ["2", "Bob"])⟩

/-! ## Claims -/

/-- C1: a value whose dynamic type implements both `Marshaler`
(DirectEncodable) and `Recorder` (RecordEncodable) is marshalled through
`MarshalCSV`, whose byte slice and error are returned verbatim — for any
contents of the `Recorder` side, so the single-record path is never
taken for such a value. -/
theorem C1_direct_precedence :
    ∀ (v : Value) (bs err : Option String),
      v.capsOf.marshalCSV = some (bs, err) →
      v.capsOf.recorder.isSome →
      Marshal v = .ret bs err := by
  intro v bs err hm _
  cases v with
  | nilV => exact absurd hm (by simp [Value.capsOf])
  | atom ty caps => simp [Marshal, capsResult, Value.capsOf.eq_def] at hm ⊢; rw [hm]
  | ptr ty caps pointee => simp [Marshal, capsResult, Value.capsOf.eq_def] at hm ⊢; rw [hm]
  | coll ty caps elemTy elems =>
      simp [Marshal, capsResult, Value.capsOf.eq_def] at hm ⊢; rw [hm]

/-- Witness for C1 at a concrete value implementing both interfaces:
the `MarshalCSV` pair `(some "custom", none)` passes through although
the `Recorder` side would have produced `"h\n1\n"`. -/
theorem C1_direct_precedence_witness :
    Marshal (.atom "main.Both" ⟨some (some "custom", none), some (["h"], ["1"])⟩)
      = .ret (some "custom") none :=
  C1_direct_precedence
    (.atom "main.Both" ⟨some (some "custom", none), some (["h"], ["1"])⟩)
    (some "custom") none rfl rfl

/-- C5: an empty slice routed to the homogeneous-collection strategy
(declared element type implementing `Recorder`) or to the
tagged-collection strategy (interface element type) makes `Marshal`
return a nil byte slice — never an empty byte slice — and the
`csv: no data` (EmptyCollection) error. -/
theorem C5_empty_collection :
    ∀ (ty iname : String),
      Marshal (.coll ty ⟨none, none⟩ .recorderT []) = .ret none (some errNoData) ∧
      Marshal (.coll ty ⟨none, none⟩ (.interfaceT iname) []) = .ret none (some errNoData) := by
  intro ty iname
  exact ⟨rfl, rfl⟩

/-- C7: the row writer on a field list of length ≥ 1 emits the fields
joined by single commas with exactly one terminating newline appended
and each field copied verbatim (no escaping or quoting); in particular
`["a","b","c"]` gives `"a,b,c\n"` and `["x"]` gives `"x\n"`. -/
theorem C7_row_writer :
    (∀ (s : String) (rest : List String),
      writeRecord (s :: rest) = .ok (rowStr (s :: rest))) ∧
    writeRecord ["a", "b", "c"] = .ok "a,b,c\n" ∧
    writeRecord ["x"] = .ok "x\n" :=
  ⟨writeRecord_cons, rfl, rfl⟩

/-- C10: `Marshal(nil)`: `reflect.TypeOf(nil)` is a nil `reflect.Type`,
so the `vt.Implements(marshalerType)` call dereferences a nil pointer
and the call panics instead of returning any `(bytes, error)` result —
in particular no structured `csv: cannot marshal` (UnsupportedType)
error is produced. -/
theorem C10_nil_panics :
    Marshal .nilV = .panic nilDerefPanicMsg := rfl

/-- C9 counterexample: the claim says a capability two dereference
levels down (with no intermediate level satisfying a capability) is not
used. In the code, `Marshal` recursively restarts after each single
dereference, so a `**main.T` value whose `Recorder` capability sits on
the innermost value is nevertheless encoded through it. -/
theorem C9_counterexample :
    Marshal (.ptr "**main.T" ⟨none, none⟩ (.ptr "*main.T" ⟨none, none⟩
      (.atom "main.T" ⟨none, some (["h"], ["v"])⟩))) = .ret (some "h\nv\n") none := rfl

/-- C9 (amended): capability checking happens on the indirected value
itself first (its own `Marshaler`, then `Recorder`, capability wins, the
pointee is never consulted); when both checks fail on a pointer,
`Marshal` restarts on the single direct dereference — and because the
restart is a recursive call, any number of capability-less pointer
levels is collapsed. -/
theorem C9_pointer_collapse :
    (∀ (tys : List String) (v : Value), Marshal (wrapPtrs tys v) = Marshal v) ∧
    (∀ (ty : String) (bs err : Option String)
        (rc : Option (List String × List String)) (pointee : Value),
      Marshal (.ptr ty ⟨some (bs, err), rc⟩ pointee) = .ret bs err) ∧
    (∀ (ty : String) (h r : List String) (pointee : Value),
      Marshal (.ptr ty ⟨none, some (h, r)⟩ pointee) =
        match marshalRecorder h r with
        | .ok bs => .ret (some bs) none
        | .error m => .panic m) := by
  refine ⟨?_, ?_, ?_⟩
  · intro tys
    induction tys with
    | nil => intro v; rfl
    | cons ty tys ih =>
        intro v
        show Marshal (.ptr ty ⟨none, none⟩ (wrapPtrs tys v)) = Marshal v
        rw [show Marshal (.ptr ty ⟨none, none⟩ (wrapPtrs tys v))
              = Marshal (wrapPtrs tys v) from rfl, ih v]
  · intro ty bs err rc pointee; rfl
  · intro ty h r pointee
    cases hm : marshalRecorder h r <;> simp [Marshal, capsResult, hm]

/-- C6 counterexample: the claim quantifies over every `Recorder`
value, but a `Recorder` whose header and record are both empty (equal
lengths, so even the §3 invariant holds) makes `writeRecord` evaluate
`slice[:-1]` and the single-record strategy panics instead of returning
a header row, a data row and no error. -/
theorem C6_counterexample :
    Marshal (.atom "main.Empty" ⟨none, some ([], [])⟩) = .panic boundsPanicMsg := rfl

/-- C6 (amended): for every `Recorder` value with non-empty header and
non-empty record, the single-record strategy returns the header row
followed by exactly one data row, with a nil error; in particular
header `["id","name"]` and record `["1","Alice"]` encode to
`"id,name\n1,Alice\n"`. -/
theorem C6_single_record :
    (∀ (ty : String) (h r : List String), h ≠ [] → r ≠ [] →
      Marshal (.atom ty ⟨none, some (h, r)⟩) = .ret (some (rowStr h ++ rowStr r)) none) ∧
    Marshal (.atom "main.User" ⟨none, some (["id", "name"], ["1", "Alice"])⟩)
      = .ret (some "id,name\n1,Alice\n") none := by
  constructor
  · intro ty h r hh hr
    simp [Marshal, capsResult, marshalRecorder_ok h r hh hr]
  · rfl

/-- Witness for C6 (amended) at a concrete single record. -/
theorem C6_single_record_witness :
    Marshal (.atom "main.User" ⟨none, some (["id", "name"], ["1", "Alice"])⟩)
      = .ret (some (rowStr ["id", "name"] ++ rowStr ["1", "Alice"])) none :=
  C6_single_record.1 "main.User" ["id", "name"] ["1", "Alice"]
    (by decide) (by decide)

/-- C8 counterexample: with header `["id","name"]` and record `["1"]`
(mismatched lengths) the strategy emits both rows in full —
`"id,name\n1\n"`, which differs from the truncation-at-the-shorter-
length output `"id\n1\n"` the claim describes — and with header `["id"]`
and empty record (also mismatched lengths) it crashes with the
slice-bounds panic, contradicting "does not crash". -/
theorem C8_counterexample :
    marshalRecorder ["id", "name"] ["1"] = .ok "id,name\n1\n" ∧
    (("id,name\n1\n" : String) == "id\n1\n") = false ∧
    marshalRecorder ["id"] [] = .error boundsPanicMsg :=
  ⟨rfl, by decide, rfl⟩

/-- C8 (amended): no validation relates the header and record lengths.
When both sequences are non-empty and their lengths differ, the strategy
does not crash and emits both rows in full (a malformed, ragged pair of
rows — no truncation at the shorter length); when either sequence is
empty, `writeRecord` panics with the slice-bounds runtime error. -/
theorem C8_mismatch_behavior :
    (∀ (h r : List String), h ≠ [] → r ≠ [] → h.length ≠ r.length →
      marshalRecorder h r = .ok (rowStr h ++ rowStr r)) ∧
    (∀ r : List String, marshalRecorder [] r = .error boundsPanicMsg) ∧
    (∀ h : List String, h ≠ [] → marshalRecorder h [] = .error boundsPanicMsg) := by
  refine ⟨?_, ?_, ?_⟩
  · intro h r hh hr _
    exact marshalRecorder_ok h r hh hr
  · intro r; rfl
  · intro h hh
    obtain ⟨s, t, rfl⟩ := List.exists_cons_of_ne_nil hh
    unfold marshalRecorder
    rw [writeRecord_cons s t]
    rfl

/-- Witness for C8 (amended) at concrete mismatched inputs. -/
theorem C8_mismatch_behavior_witness :
    marshalRecorder ["id", "name"] ["1"] = .ok (rowStr ["id", "name"] ++ rowStr ["1"]) ∧
    marshalRecorder ["x"] [] = .error boundsPanicMsg :=
  ⟨C8_mismatch_behavior.1 ["id", "name"] ["1"] (by decide) (by decide) (by decide),
   C8_mismatch_behavior.2.2 ["x"] (by decide)⟩

theorem ifaceGet_error_of_capFailure (t : String) (v : Value) (e : String)
    (hf : capFailure t v = some e) : ifaceGet t v = .error e := by
  unfold capFailure at hf
  cases hrec : v.capsOf.recorder with
  | none =>
      rw [hrec] at hf
      simp only [Option.some.injEq] at hf
      simp [ifaceGet, hrec, hf]
  | some hr =>
      rw [hrec] at hf
      by_cases hty : v.tyName = t
      · rw [if_pos hty] at hf; exact absurd hf (by simp)
      · rw [if_neg hty] at hf
        simp only [Option.some.injEq] at hf
        simp [ifaceGet, hrec, hty, hf]

theorem ifaceGet_ok_of_capFailure_none (t : String) (v : Value)
    (hf : capFailure t v = none) :
    ∃ hr, v.capsOf.recorder = some hr ∧ ifaceGet t v = .ok hr ∧ hr.2 = v.recordOf := by
  unfold capFailure at hf
  cases hrec : v.capsOf.recorder with
  | none => rw [hrec] at hf; simp at hf
  | some hr =>
      rw [hrec] at hf
      by_cases hty : v.tyName = t
      · refine ⟨hr, rfl, ?_, ?_⟩
        · simp [ifaceGet, hrec, hty]
        · simp [Value.recordOf, hrec]
      · rw [if_neg hty] at hf; exact absurd hf (by simp)

/-- If every element of `pre` passes the per-element check and has a
non-empty record, and `bad` fails the check with `e`, the row loop over
`pre ++ bad :: post` aborts with exactly `e`: elements are visited in
order and the first failure wins, whatever follows it. -/
theorem ifaceRows_error (t : String) (pre : List Value) (bad : Value)
    (post : List Value) (e : String)
    (hpre : ∀ v ∈ pre, capFailure t v = none ∧ v.recordOf ≠ [])
    (hbad : capFailure t bad = some e) :
    ifaceRows t (pre ++ bad :: post) = .error e := by
  induction pre with
  | nil =>
      have hget := ifaceGet_error_of_capFailure t bad e hbad
      show ifaceRows t (bad :: post) = .error e
      simp only [ifaceRows, hget]
  | cons v pre ih =>
      obtain ⟨hv, hvrec⟩ := hpre v (List.mem_cons_self v pre)
      obtain ⟨hr, _, hget, hr2⟩ := ifaceGet_ok_of_capFailure_none t v hv
      obtain ⟨s, w, hsw⟩ := List.exists_cons_of_ne_nil (hr2 ▸ hvrec)
      have hrows := ih (fun u hu => hpre u (List.mem_cons_of_mem v hu))
      show ifaceRows t (v :: (pre ++ bad :: post)) = .error e
      simp only [ifaceRows, hget, hsw, writeRecord_cons, hrows]

/-- C2 (amended): in the tagged-collection strategy the per-element
checks run in sequence order, element 0 included, and the first failing
element aborts the whole call: a missing `Recorder` capability yields
the `csv: slice element %T does not implement Recorder` error
(carrying the actual type), a diverging concrete type yields the
`csv: expecting slice element type %s, got %s` error (carrying expected
and actual type); neither error carries the element's index. The abort
is returned as an ordinary error result (`recover` turns the internal
panic into a return), with a nil byte slice — no partial output. -/
theorem C2_tagged_abort :
    (∀ (bad : Value) (post : List Value) (e : String),
      capFailure bad.tyName bad = some e →
      marshalInterfaceSlice (bad :: post) = .ret none (some e)) ∧
    (∀ (v0 : Value) (pre post : List Value) (bad : Value) (e : String),
      (∀ v ∈ v0 :: pre, capFailure v0.tyName v = none ∧ v.recordOf ≠ []) →
      v0.headerOf ≠ [] →
      capFailure v0.tyName bad = some e →
      marshalInterfaceSlice (v0 :: (pre ++ bad :: post)) = .ret none (some e)) := by
  constructor
  · intro bad post e hbad
    have hget := ifaceGet_error_of_capFailure bad.tyName bad e hbad
    show marshalInterfaceSlice (bad :: post) = .ret none (some e)
    simp only [marshalInterfaceSlice, hget]
  · intro v0 pre post bad e hall hhead hbad
    obtain ⟨h0, _⟩ := hall v0 (List.mem_cons_self v0 pre)
    obtain ⟨hr0, hrecv0, hget0, _⟩ := ifaceGet_ok_of_capFailure_none v0.tyName v0 h0
    have hh1 : hr0.1 = v0.headerOf := by
      simp [Value.headerOf, hrecv0]
    obtain ⟨s, w, hsw⟩ := List.exists_cons_of_ne_nil (hh1 ▸ hhead)
    have hrows : ifaceRows v0.tyName (v0 :: (pre ++ bad :: post)) = .error e := by
      have h := ifaceRows_error v0.tyName (v0 :: pre) bad post e hall hbad
      simpa [List.cons_append] using h
    simp only [marshalInterfaceSlice, hget0, hsw, writeRecord_cons, hrows]

/-- Witness for C2 (amended): `[exA, exX]` aborts at the non-`Recorder`
element `exX` with the type-only error, nil bytes, ordinary return. -/
theorem C2_tagged_abort_witness :
    marshalInterfaceSlice [exA, exX]
      = .ret none (some (errElemNotRecorder "main.X")) := by
  have h := C2_tagged_abort.2 exA [] [] exX (errElemNotRecorder "main.X")
    (by
      intro v hv
      rcases List.mem_singleton.mp hv with rfl
      exact ⟨rfl, by decide⟩)
    (by decide) rfl
  exact h

/-- C2 counterexample: the claim names the abort failure
`ElementNotRecordEncodable(index, actualType)`, a failure carrying the
offending index. The code's error interpolates only the type: the call
aborting at index 1 and the call aborting at index 2 (same element
types) return the very same result, so the reported failure cannot carry
the index. -/
theorem C2_counterexample :
    firstFailIdx [exA, exX] = some 1 ∧
    firstFailIdx [exA, exA, exX] = some 2 ∧
    marshalInterfaceSlice [exA, exX] = marshalInterfaceSlice [exA, exA, exX] :=
  ⟨rfl, rfl, rfl⟩

theorem countNL_append (a b : String) :
    countNL (a ++ b) = countNL a + countNL b := by
  simp [countNL, List.count_append]

theorem rowStr_cons₂ (s a : String) (t : List String) :
    rowStr (s :: a :: t) = s ++ "," ++ rowStr (a :: t) := by
  have h1 : writeRecord (s :: a :: t) = .ok (s ++ "," ++ rowStr (a :: t)) := by
    show (writeRecord (a :: t)).map (fun u => s ++ "," ++ u) = _
    rw [writeRecord_cons]
    rfl
  have h2 := writeRecord_cons s (a :: t)
  rw [h1] at h2
  simpa using h2.symm

theorem countNL_rowStr (s : String) (t : List String)
    (hfree : ∀ f ∈ s :: t, f.data.count '\n' = 0) :
    countNL (rowStr (s :: t)) = 1 := by
  induction t generalizing s with
  | nil =>
      have hs := hfree s (List.mem_cons_self s [])
      rw [show rowStr [s] = s ++ "\n" from rfl, countNL_append]
      rw [show countNL s = 0 from hs]
      rfl
  | cons a t ih =>
      have hs := hfree s (List.mem_cons_self s (a :: t))
      rw [rowStr_cons₂, countNL_append, countNL_append]
      rw [show countNL s = 0 from hs,
        ih a (fun f hf => hfree f (List.mem_cons_of_mem s hf))]
      rfl

theorem countNL_rowsStr (l : List Value)
    (hall : ∀ v ∈ l, v.recordOf ≠ [] ∧ ∀ f ∈ v.recordOf, f.data.count '\n' = 0) :
    countNL (rowsStr l) = l.length := by
  induction l with
  | nil => rfl
  | cons v rest ih =>
      obtain ⟨hne, hfree⟩ := hall v (List.mem_cons_self v rest)
      obtain ⟨s, w, hsw⟩ := List.exists_cons_of_ne_nil hne
      rw [show rowsStr (v :: rest) = rowStr v.recordOf ++ rowsStr rest from rfl,
        countNL_append, hsw, countNL_rowStr s w (hsw ▸ hfree),
        ih (fun u hu => hall u (List.mem_cons_of_mem v hu))]
      simp [Nat.add_comm]

theorem recRows_ok (l : List Value)
    (hall : ∀ v ∈ l, v.capsOf.recorder.isSome ∧ v.recordOf ≠ []) :
    recRows l = .ok (rowsStr l) := by
  induction l with
  | nil => rfl
  | cons v rest ih =>
      obtain ⟨hsome, hrec⟩ := hall v (List.mem_cons_self v rest)
      obtain ⟨hr, hrs⟩ := Option.isSome_iff_exists.mp hsome
      have hassert : recAssert v = .ok hr := by simp [recAssert, hrs]
      have hr2 : hr.2 = v.recordOf := by simp [Value.recordOf, hrs]
      obtain ⟨s, w, hsw⟩ := List.exists_cons_of_ne_nil (hr2 ▸ hrec)
      have hrest := ih (fun u hu => hall u (List.mem_cons_of_mem v hu))
      show recRows (v :: rest) = .ok (rowsStr (v :: rest))
      simp only [recRows, hassert, hsw, writeRecord_cons, hrest]
      rw [show rowsStr (v :: rest) = rowStr v.recordOf ++ rowsStr rest from rfl,
        ← hr2, hsw]

theorem marshalRecorderSlice_ok (v0 : Value) (rest : List Value)
    (hall : ∀ v ∈ v0 :: rest, v.capsOf.recorder.isSome ∧ v.recordOf ≠ [])
    (hhead : v0.headerOf ≠ []) :
    marshalRecorderSlice (v0 :: rest)
      = .ret (some (rowStr v0.headerOf ++ rowsStr (v0 :: rest))) none := by
  obtain ⟨hsome, _⟩ := hall v0 (List.mem_cons_self v0 rest)
  obtain ⟨hr0, hrs0⟩ := Option.isSome_iff_exists.mp hsome
  have hassert : recAssert v0 = .ok hr0 := by simp [recAssert, hrs0]
  have hh1 : hr0.1 = v0.headerOf := by simp [Value.headerOf, hrs0]
  obtain ⟨s, w, hsw⟩ := List.exists_cons_of_ne_nil (hh1 ▸ hhead)
  have hrows := recRows_ok (v0 :: rest) hall
  simp only [marshalRecorderSlice, hassert, hsw, writeRecord_cons, hrows]
  rw [← hsw, hh1]

/-- C3 (amended): a non-empty homogeneous collection of `Recorder`
elements whose header/record pairs are equal-length, non-empty, and
whose record fields contain no embedded newline (likewise the first
element's header fields), marshals to the first element's header row
followed by one record row per element in order — `rowsStr` and
`rowStr` mention only element 0's header, so headers of later elements
never influence the output — and the output contains exactly `n + 1`
newline-terminated lines. -/
theorem C3_homogeneous_rows :
    ∀ (v0 : Value) (rest : List Value),
      (∀ v ∈ v0 :: rest, v.capsOf.recorder.isSome ∧
        v.headerOf.length = v.recordOf.length ∧ v.recordOf ≠ [] ∧
        ∀ f ∈ v.recordOf, f.data.count '\n' = 0) →
      (∀ f ∈ v0.headerOf, f.data.count '\n' = 0) →
      marshalRecorderSlice (v0 :: rest)
        = .ret (some (rowStr v0.headerOf ++ rowsStr (v0 :: rest))) none ∧
      countNL (rowStr v0.headerOf ++ rowsStr (v0 :: rest)) = (v0 :: rest).length + 1 := by
  intro v0 rest hall hfree0
  have hall' : ∀ v ∈ v0 :: rest, v.capsOf.recorder.isSome ∧ v.recordOf ≠ [] :=
    fun v hv => ⟨(hall v hv).1, (hall v hv).2.2.1⟩
  have hhead : v0.headerOf ≠ [] := by
    intro hnil
    rcases hall v0 (List.mem_cons_self v0 rest) with ⟨_, hlen, hrec, _⟩
    exact hrec (List.eq_nil_of_length_eq_zero (by rw [← hlen, hnil]; rfl))
  refine ⟨marshalRecorderSlice_ok v0 rest hall' hhead, ?_⟩
  obtain ⟨s, w, hsw⟩ := List.exists_cons_of_ne_nil hhead
  rw [countNL_append, hsw, countNL_rowStr s w (hsw ▸ hfree0),
    countNL_rowsStr (v0 :: rest) (fun v hv => ⟨(hall v hv).2.2.1, (hall v hv).2.2.2⟩)]
  simp [Nat.add_comm]

/-- Witness for C3 (amended) at a concrete two-element collection:
`"id,name\n1,Alice\n2,Bob\n"`, 3 = 2 + 1 lines. -/
theorem C3_homogeneous_rows_witness :
    marshalRecorderSlice [exR1, exR2]
      = .ret (some (rowStr exR1.headerOf ++ rowsStr [exR1, exR2])) none ∧
    countNL (rowStr exR1.headerOf ++ rowsStr [exR1, exR2]) = 3 :=
  C3_homogeneous_rows exR1 [exR2] (by decide) (by decide)

/-- C3 counterexample: the claim's hypotheses allow (i) equal-length
**empty** header/record pairs — on which the strategy hits
`writeRecord`'s `slice[:-1]` and panics, producing no lines at all —
and (ii) record fields with embedded newlines (never escaped), on which
a 1-element collection produces 3 newline-terminated lines, not
`n + 1 = 2`. -/
theorem C3_counterexample :
    marshalRecorderSlice [.atom "main.E" ⟨none, some ([], [])⟩] = .panic boundsPanicMsg ∧
    marshalRecorderSlice [.atom "main.N" ⟨none, some (["h"], ["a\nb"])⟩]
      = .ret (some "h\na\nb\n") none ∧
    countNL "h\na\nb\n" = 3 :=
  ⟨rfl, rfl, by decide⟩

theorem rows_agree (t : String) (l : List Value)
    (hall : ∀ v ∈ l, v.capsOf.recorder.isSome ∧ v.tyName = t) :
    ifaceRows t l = recRows l := by
  induction l with
  | nil => rfl
  | cons v rest ih =>
      obtain ⟨hsome, hty⟩ := hall v (List.mem_cons_self v rest)
      obtain ⟨hr, hrs⟩ := Option.isSome_iff_exists.mp hsome
      have hig : ifaceGet t v = .ok hr := by simp [ifaceGet, hrs, hty]
      have hra : recAssert v = .ok hr := by simp [recAssert, hrs]
      have hrest := ih (fun u hu => hall u (List.mem_cons_of_mem v hu))
      show ifaceRows t (v :: rest) = recRows (v :: rest)
      simp only [ifaceRows, recRows, hig, hra, hrest]

/-- C4: over a non-empty sequence of `Recorder` values all sharing one
concrete dynamic type, the tagged-collection strategy (interface
element type) and the homogeneous-collection strategy (declared
`Recorder` element type) produce identical byte output: always the same
(possibly nil) byte slice, and whenever the homogeneous strategy
returns bytes, the tagged strategy returns exactly those bytes. -/
theorem C4_tagged_matches_homogeneous :
    ∀ (v0 : Value) (rest : List Value),
      (∀ v ∈ v0 :: rest, v.capsOf.recorder.isSome ∧ v.tyName = v0.tyName) →
      (marshalInterfaceSlice (v0 :: rest)).bytesOf
        = (marshalRecorderSlice (v0 :: rest)).bytesOf ∧
      (∀ bs, marshalRecorderSlice (v0 :: rest) = .ret (some bs) none →
        marshalInterfaceSlice (v0 :: rest) = .ret (some bs) none) := by
  intro v0 rest hall
  obtain ⟨hsome, _⟩ := hall v0 (List.mem_cons_self v0 rest)
  obtain ⟨hr0, hrs0⟩ := Option.isSome_iff_exists.mp hsome
  have hig0 : ifaceGet v0.tyName v0 = .ok hr0 := by simp [ifaceGet, hrs0]
  have hra0 : recAssert v0 = .ok hr0 := by simp [recAssert, hrs0]
  have hrows := rows_agree v0.tyName (v0 :: rest) hall
  refine ⟨?_, ?_⟩ <;>
    simp only [marshalInterfaceSlice, marshalRecorderSlice, hig0, hra0, hrows]
  · cases hw : writeRecord hr0.1 with
    | error m => rfl
    | ok h =>
        cases hrr : recRows (v0 :: rest) with
        | error m => rfl
        | ok rows => rfl
  · intro bs hbs
    cases hw : writeRecord hr0.1 with
    | error m => rw [hw] at hbs; exact absurd hbs (by simp)
    | ok h =>
        rw [hw] at hbs
        cases hrr : recRows (v0 :: rest) with
        | error m => rw [hrr] at hbs; exact absurd hbs (by simp)
        | ok rows =>
            rw [hrr] at hbs
            simp only [Outcome.ret.injEq, Option.some.injEq] at hbs
            rw [← hbs.1]

/-- Witness for C4 at a concrete two-element collection of one type. -/
theorem C4_tagged_matches_homogeneous_witness :
    (marshalInterfaceSlice [exR1, exR2]).bytesOf
      = (marshalRecorderSlice [exR1, exR2]).bytesOf ∧
    marshalInterfaceSlice [exR1, exR2]
      = .ret (some "id,name\n1,Alice\n2,Bob\n") none := by
  have h := C4_tagged_matches_homogeneous exR1 [exR2] (by decide)
  exact ⟨h.1, h.2 "id,name\n1,Alice\n2,Bob\n" rfl⟩

end Csv
